import Mathlib

/-!
# Signalling relay (`server/main.go`)

A shallow embedding of the WebSocket signalling server: the client registry
(`Server.clients`, a `sync.Map`), the registration handshake
(`registerClient`), the dispatch loop of `handleWebSocket`, delivery
(`sendMessageToClient`) and failure reporting (`sendErrorToClient`).

Modelling conventions.

* A `*websocket.Conn` is a natural number (the identity of the pointer).
* A byte slice given to or produced by `encoding/json` is abstracted to the
  JSON value it encodes (`Bytes`); a slice that is not one valid JSON text,
  the nil slice included, is `none`.
* `json.Unmarshal` and `json.Marshal` are modelled on JSON values for the
  three struct types of the program, following the library: keys are matched
  to fields up to case folding, members are stored in input order (a later
  duplicate overwrites), `null` stores nothing into a string field, a
  non-string value for a string field is an error, `json.RawMessage` takes
  the member's value as it is (`null` included).
* Every goroutine running `handleWebSocket` is a `Session`; one step of a
  session runs from the return of one `conn.Read` to the next `conn.Read` (or
  to the return of the function). Calls of `conn.Write` and `conn.Close` are
  recorded, with the result of the write, in a trace of `Event`s.
-/

namespace P2PChat

/-! ## JSON values and `encoding/json` -/

/-- A JSON value. Numbers keep their literal. -/
inductive Json where
  | null
  | bool (b : Bool)
  | num (lit : String)
  | str (s : String)
  | arr (xs : List Json)
  | obj (kvs : List (String × Json))

/-- A byte slice, seen through the JSON value it encodes; `none` when the
slice is not a valid JSON text (the nil and the empty slice included). -/
abbrev Bytes := Option Json

/-- Errors of `encoding/json`: a `SyntaxError` (`malformed`) or an
`UnmarshalTypeError` (`typeMismatch`). -/
inductive JsonError where
  | malformed
  | typeMismatch
  deriving DecidableEq

/-- The fold of one rune as `encoding/json` computes it for key matching: the
smallest rune of the simple-fold orbit. ASCII letters fold to upper case, and
the only two runes outside ASCII whose orbit holds an ASCII letter are
U+017F (long s) and U+212A (Kelvin sign). Other runes are left as they are:
every field name of this program is ASCII, so this decides the same
matches. -/
def foldRune (c : Char) : Char :=
  if 'a' ≤ c ∧ c ≤ 'z' then Char.ofNat (c.toNat - 32)
  else if c = Char.ofNat 0x17F then 'S'
  else if c = Char.ofNat 0x212A then 'K'
  else c

/-- The folded form of a key, `foldName` of `encoding/json`. -/
def foldName (s : String) : String := String.mk (s.data.map foldRune)

/-- Whether an object key selects the struct field with JSON name `name`. -/
def keyMatches (name key : String) : Bool := foldName key = foldName name

/-- Store a JSON value into a Go `string` field holding `cur`: a string is
stored, `null` leaves the field, any other value is an
`UnmarshalTypeError`. -/
def storeString (cur : String) : Json → Except JsonError String
  | .str s => .ok s
  | .null => .ok cur
  | _ => .error .typeMismatch

/-- Decode the members of a JSON object, in input order, into a struct. -/
def decodeObject {α : Type} (set : α → String → Json → Except JsonError α) :
    List (String × Json) → α → Except JsonError α
  | [], a => .ok a
  | (k, v) :: rest, a =>
    match set a k v with
    | .error e => .error e
    | .ok a' => decodeObject set rest a'

/-- The call `json.Unmarshal(data, &x)` for a struct variable `x` holding
`zero`: invalid input is a syntax error, `null` stores nothing, an object is
decoded member by member, any other value is a type error. -/
def decodeStruct {α : Type} (set : α → String → Json → Except JsonError α) (zero : α) :
    Bytes → Except JsonError α
  | none => .error .malformed
  | some .null => .ok zero
  | some (.obj kvs) => decodeObject set kvs zero
  | some _ => .error .typeMismatch

/-! ## The message types -/

/-- The struct `Message`. The field `Type` is written `Typ`. -/
structure Message where
  Typ : String := ""
  Payload : Bytes := none
  From : String := ""

/-- The struct `RegisterPayload`. -/
structure RegisterPayload where
  UserID : String := ""

/-- The struct `ForwardPayload`. -/
structure ForwardPayload where
  TargetUserID : String := ""

/-- Store one object member into a `Message`. -/
def Message.setField (m : Message) (key : String) (v : Json) : Except JsonError Message :=
  if keyMatches "type" key then
    match storeString m.Typ v with
    | .error e => .error e
    | .ok s => .ok { m with Typ := s }
  else if keyMatches "payload" key then .ok { m with Payload := some v }
  else if keyMatches "from" key then
    match storeString m.From v with
    | .error e => .error e
    | .ok s => .ok { m with From := s }
  else .ok m

/-- Store one object member into a `RegisterPayload`. -/
def RegisterPayload.setField (p : RegisterPayload) (key : String) (v : Json) :
    Except JsonError RegisterPayload :=
  if keyMatches "userId" key then
    match storeString p.UserID v with
    | .error e => .error e
    | .ok s => .ok { p with UserID := s }
  else .ok p

/-- Store one object member into a `ForwardPayload`. -/
def ForwardPayload.setField (p : ForwardPayload) (key : String) (v : Json) :
    Except JsonError ForwardPayload :=
  if keyMatches "targetUserId" key then
    match storeString p.TargetUserID v with
    | .error e => .error e
    | .ok s => .ok { p with TargetUserID := s }
  else .ok p

/-- The call `json.Unmarshal(data, &msg)` with `var msg Message`. -/
def unmarshalMessage (data : Bytes) : Except JsonError Message :=
  decodeStruct Message.setField {} data

/-- The call `json.Unmarshal(msg.Payload, &payload)` with
`var payload RegisterPayload`. -/
def unmarshalRegisterPayload (data : Bytes) : Except JsonError RegisterPayload :=
  decodeStruct RegisterPayload.setField {} data

/-- The call `json.Unmarshal(msg.Payload, &payload)` with
`var payload ForwardPayload`. -/
def unmarshalForwardPayload (data : Bytes) : Except JsonError ForwardPayload :=
  decodeStruct ForwardPayload.setField {} data

/-- The call `json.Marshal(msg)` for a `Message`: the members `type` and
`payload`, then `from` unless it is empty (`omitempty`). A nil `RawMessage`
is written as `null`. -/
def marshalMessage (m : Message) : Except JsonError Bytes :=
  let payload := match m.Payload with
    | none => Json.null
    | some j => j
  .ok (some (.obj ([("type", .str m.Typ), ("payload", payload)] ++
    (if m.From = "" then [] else [("from", .str m.From)]))))

/-- The call `json.Marshal(errorPayload)` for the `map[string]string` literal
of `sendErrorToClient`; map keys are written in sorted order. -/
def marshalErrorPayload (errorMessage relatedUserId : String) : Except JsonError Bytes :=
  .ok (some (.obj [("message", .str errorMessage), ("targetUser", .str relatedUserId)]))

/-! ## Channels, events and the registry -/

/-- A `*websocket.Conn`. -/
abbrev Conn := Nat

/-- The type `websocket.MessageType`. -/
inductive MessageType where
  | MessageText
  | MessageBinary
  deriving DecidableEq

/-- The type `websocket.StatusCode`. -/
abbrev StatusCode := Nat

/-- The constant `websocket.StatusNormalClosure`. -/
def StatusNormalClosure : StatusCode := 1000

/-- The constant `websocket.StatusPolicyViolation`. -/
def StatusPolicyViolation : StatusCode := 1008

/-- The result of `conn.Read(ctx)`: an error, or a frame kind with its
bytes. -/
abbrev ReadResult := Except String (MessageType × Bytes)

/-- The Go `error` values of `registerClient`. -/
inductive GoError where
  | read (e : String)
  | closeError (code : StatusCode) (reason : String)

/-- The helper `logErrorf`. -/
def logErrorf : GoError :=
  .closeError StatusPolicyViolation "Invalid message format or content"

/-- A call on a channel: `conn.Write(ctx, typ, data)` with whether it returned
nil, or `conn.Close(code, reason)`. -/
inductive Event where
  | write (conn : Conn) (typ : MessageType) (data : Bytes) (ok : Bool)
  | close (conn : Conn) (code : StatusCode) (reason : String)

/-- The map `Server.clients` (`sync.Map`, `userId` to connection). -/
abbrev Registry := String → Option Conn

/-- The method `sync.Map.Load`. -/
def Registry.Load (m : Registry) (key : String) : Option Conn := m key

/-- The method `sync.Map.Store`. -/
def Registry.Store (m : Registry) (key : String) (value : Conn) : Registry :=
  fun k => if k = key then some value else m k

/-- The method `sync.Map.LoadOrStore`: the existing value and `true` when the
key is present, otherwise the value is stored and `false` returned. -/
def Registry.LoadOrStore (m : Registry) (key : String) (value : Conn) :
    (Conn × Bool) × Registry :=
  match m key with
  | some actual => ((actual, true), m)
  | none => ((value, false), Registry.Store m key value)

/-- The method `sync.Map.Delete`. -/
def Registry.Delete (m : Registry) (key : String) : Registry :=
  fun k => if k = key then none else m k

/-- The struct `Server` (the registry is its only state used here). -/
structure Server where
  clients : Registry

/-- The server of `newServer`. -/
def newServer : Server := ⟨fun _ => none⟩

/-! ## Delivery and failure reporting -/

/-- The method `sendErrorToClient`: build the error envelope, look the
recipient up in the registry and write the envelope on the channel found
there. `wr` gives the result of `conn.Write` on each channel. -/
def sendErrorToClient (s : Server) (wr : Conn → Bool) (recipientUserId relatedUserId
    errorMessage : String) : Server × List Event :=
  match marshalErrorPayload errorMessage relatedUserId with
  | .error _ => (s, [])
  | .ok payloadBytes =>
    let errorMsg : Message := { Typ := "error", Payload := payloadBytes }
    match marshalMessage errorMsg with
    | .error _ => (s, [])
    | .ok msgBytes =>
      match s.clients.Load recipientUserId with
      | some conn => (s, [Event.write conn .MessageText msgBytes (wr conn)])
      | none => (s, [])

/-- The method `sendMessageToClient`: write `msgData` on the channel the
registry holds for the target (a failed write is only logged), or report the
missing target to the original sender. -/
def sendMessageToClient (s : Server) (wr : Conn → Bool) (targetUserId originalSenderId : String)
    (msgData : Bytes) : Server × List Event :=
  match s.clients.Load targetUserId with
  | some conn => (s, [Event.write conn .MessageText msgData (wr conn)])
  | none => sendErrorToClient s wr originalSenderId targetUserId "User not found or offline"

/-! ## The registration handshake -/

/-- The method `registerClient`: read the first frame and, when it is a
well-formed `register` with a non-empty `userId`, store the connection under
that id and write the id to `*userIdStorage`. Returns the error (if any), the
server and the content of `*userIdStorage`. -/
def registerClient (s : Server) (conn : Conn) (rd : ReadResult) (userIdStorage : String) :
    Option GoError × Server × String :=
  match rd with
  | .error e => (some (.read e), s, userIdStorage)
  | .ok (msgType, data) =>
    if msgType ≠ .MessageText then (some logErrorf, s, userIdStorage)
    else
      match unmarshalMessage data with
      | .error _ => (some logErrorf, s, userIdStorage)
      | .ok msg =>
        if msg.Typ ≠ "register" then (some logErrorf, s, userIdStorage)
        else
          match unmarshalRegisterPayload msg.Payload with
          | .error _ => (some logErrorf, s, userIdStorage)
          | .ok payload =>
            if payload.UserID = "" then (some logErrorf, s, userIdStorage)
            else
              let r := s.clients.LoadOrStore payload.UserID conn
              let clients := if r.1.2 then r.2.Store payload.UserID conn else r.2
              (none, { s with clients := clients }, payload.UserID)

/-! ## The session: `handleWebSocket` -/

/-- Whether the loop of `handleWebSocket` goes on (`continue`, or the end of
the body) or is left (`break`). -/
inductive LoopControl where
  | next
  | exit
  deriving DecidableEq

/-- One iteration of the `for` loop of `handleWebSocket`, from the result of
`conn.Read`. -/
def loopBody (s : Server) (wr : Conn → Bool) (registeredUserID : String) (rd : ReadResult) :
    Server × List Event × LoopControl :=
  match rd with
  | .error _ => (s, [], .exit)
  | .ok (msgType, data) =>
    if msgType ≠ .MessageText then (s, [], .next)
    else
      match unmarshalMessage data with
      | .error _ => (s, [], .next)
      | .ok msg0 =>
        let msg : Message := { msg0 with From := registeredUserID }
        if msg.Typ = "offer" ∨ msg.Typ = "answer" ∨ msg.Typ = "candidate" then
          match unmarshalForwardPayload msg.Payload with
          | .error _ => (s, [], .next)
          | .ok payload =>
            match marshalMessage msg with
            | .error _ => (s, [], .next)
            | .ok modifiedData =>
              let r := sendMessageToClient s wr payload.TargetUserID registeredUserID modifiedData
              (r.1, r.2, .next)
        else if msg.Typ = "register" then (s, [], .next)
        else (s, [], .next)

/-- The deferred function of `handleWebSocket`: delete the registered id from
the registry when there is one, then close the connection. -/
def deferredCleanup (s : Server) (conn : Conn) (registeredUserID : String) :
    Server × List Event :=
  let s' : Server :=
    if registeredUserID ≠ "" then { s with clients := s.clients.Delete registeredUserID } else s
  (s', [Event.close conn StatusNormalClosure "Connection closed by server"])

/-- Where a goroutine running `handleWebSocket` stands: blocked in the
`conn.Read` of `registerClient`, blocked in the `conn.Read` of the loop, or
returned. -/
inductive Phase where
  | handshake
  | loop
  | closed
  deriving DecidableEq

/-- The local state of one `handleWebSocket` call: the variable
`registeredUserID` and the program point. -/
structure Session where
  registeredUserID : String
  phase : Phase
  deriving DecidableEq

/-- One step of `handleWebSocket` on `conn`: from the result `rd` of the
pending `conn.Read` to the next `conn.Read`, or to the return of the function
(the deferred function included). A returned session takes no step. -/
def handleWebSocket (s : Server) (wr : Conn → Bool) (conn : Conn) (st : Session)
    (rd : ReadResult) : Server × Session × List Event :=
  match st.phase with
  | .handshake =>
    match registerClient s conn rd st.registeredUserID with
    | (some _, s1, uid) =>
      let r := deferredCleanup s1 conn uid
      (r.1, ⟨uid, .closed⟩,
        Event.close conn StatusPolicyViolation "Registration required" :: r.2)
    | (none, s1, uid) => (s1, ⟨uid, .loop⟩, [])
  | .loop =>
    match loopBody s wr st.registeredUserID rd with
    | (s1, evs, .next) => (s1, ⟨st.registeredUserID, .loop⟩, evs)
    | (s1, evs, .exit) =>
      let r := deferredCleanup s1 conn st.registeredUserID
      (r.1, ⟨st.registeredUserID, .closed⟩, evs ++ r.2)
  | .closed => (s, st, [])

/-! ## The server as a transition system -/

/-- The state of the whole server: the registry, the session of every
accepted connection, and the calls made on the channels so far. -/
structure World where
  server : Server
  sessions : Conn → Option Session
  trace : List Event

/-- The server before any connection. -/
def World.init : World := ⟨newServer, fun _ => none, []⟩

/-- What can happen: a fresh connection is accepted and handed to
`handleWebSocket`, or the pending `conn.Read` of a session returns `rd`
(writes made in the step succeed where `wr` says so). -/
inductive Action where
  | accept (conn : Conn)
  | recv (conn : Conn) (rd : ReadResult) (wr : Conn → Bool)

/-- One transition; `none` when the action is not possible (the connection
is not fresh, or has no session blocked in a read). -/
def World.step (w : World) : Action → Option World
  | .accept conn =>
    match w.sessions conn with
    | some _ => none
    | none =>
      some { w with sessions := fun c => if c = conn then some ⟨"", .handshake⟩ else w.sessions c }
  | .recv conn rd wr =>
    match w.sessions conn with
    | none => none
    | some st =>
      if st.phase = .closed then none
      else
        let r := handleWebSocket w.server wr conn st rd
        some { server := r.1,
               sessions := fun c => if c = conn then some r.2.1 else w.sessions c,
               trace := w.trace ++ r.2.2 }

/-- Run a list of actions. -/
def World.run : List Action → World → Option World
  | [], w => some w
  | a :: rest, w =>
    match w.step a with
    | none => none
    | some w' => World.run rest w'

/-- The states the server can be in. -/
def World.Reachable (w : World) : Prop := ∃ acts, World.run acts World.init = some w

/-- The first frame read by `registerClient` is a text frame that decodes to
a `Message` of type `register` whose payload decodes to the non-empty
`userId` `u`. -/
def IsRegistration (rd : ReadResult) (u : String) : Prop :=
  ∃ data msg, rd = .ok (.MessageText, data) ∧ unmarshalMessage data = .ok msg ∧
    msg.Typ = "register" ∧ unmarshalRegisterPayload msg.Payload = .ok ⟨u⟩ ∧ u ≠ ""

/-- The lifecycle invariant of the server: every registry entry belongs to a
session in its loop whose `registeredUserID` is the key; a session in its
loop has a non-empty `registeredUserID`; a session still in the handshake has
an empty one. -/
structure World.Inv (w : World) : Prop where
  entry : ∀ u c, w.server.clients u = some c → w.sessions c = some ⟨u, .loop⟩
  bound : ∀ c st, w.sessions c = some st → st.phase = .loop → st.registeredUserID ≠ ""
  unbound : ∀ c st, w.sessions c = some st → st.phase = .handshake → st.registeredUserID = ""

/-- The first frame is rejected by the handshake: it is not a text frame, or
it does not decode to a `Message`, or its type is not `register`, or its
payload does not decode to a `RegisterPayload`, or the `userId` is empty (a
missing `userId` leaves the field empty). -/
def IsRejectedFrame (msgType : MessageType) (data : Bytes) : Prop :=
  msgType ≠ .MessageText ∨ (∃ e, unmarshalMessage data = .error e) ∨
    ∃ msg, unmarshalMessage data = .ok msg ∧
      (msg.Typ ≠ "register" ∨ (∃ e, unmarshalRegisterPayload msg.Payload = .error e) ∨
        ∃ payload, unmarshalRegisterPayload msg.Payload = .ok payload ∧ payload.UserID = "")

/-- Registrations one after the other on one server: each entry is a
connection with the first frame read on it. -/
def registerAll : List (Conn × ReadResult) → Server → Server
  | [], s => s
  | (conn, rd) :: rest, s => registerAll rest (registerClient s conn rd "").2.1

/-- The channel registered last under `u` in a list of registrations of
identities on connections, if any. -/
def lastRegistered (u : String) : List (String × Conn × ReadResult) → Option Conn
  | [] => none
  | (v, conn, _) :: rest =>
    match lastRegistered u rest with
    | some c => some c
    | none => if v = u then some conn else none

/-! ## Frames used in the examples -/

/-- The text frame `{"type":"register","payload":{"userId":u}}`. -/
def registerFrame (u : String) : ReadResult :=
  .ok (.MessageText, some (.obj [("type", .str "register"), ("payload", .obj [("userId", .str u)])]))

/-- The text frame `{"type":"offer","payload":{"targetUserId":t,"sdp":"..."}}`. -/
def offerFrame (t : String) : ReadResult :=
  .ok (.MessageText, some (.obj [("type", .str "offer"),
    ("payload", .obj [("targetUserId", .str t), ("sdp", .str "...")])]))

/-- The text frame `{"type":"offer","payload":{"sdp":"x"}}`: an offer whose
payload has no `targetUserId`. -/
def untargetedOffer : ReadResult :=
  .ok (.MessageText, some (.obj [("type", .str "offer"), ("payload", .obj [("sdp", .str "x")])]))

/-- The text frame `{"type":"offer","payload":null}`. -/
def nullPayloadOffer : ReadResult :=
  .ok (.MessageText, some (.obj [("type", .str "offer"), ("payload", .null)]))

/-- The text frame `{"type":"offer"}`: an offer with no payload. -/
def noPayloadOffer : ReadResult :=
  .ok (.MessageText, some (.obj [("type", .str "offer")]))

/-- Every write succeeds. -/
def allOk : Conn → Bool := fun _ => true

/-- The state reached from the initial one by a list of actions (the initial
state when the list cannot be run). -/
def World.after (acts : List Action) : World :=
  (World.run acts World.init).getD World.init

/-- Two sessions: connection 1 registered as `alice`, connection 2 as
`bob`. -/
def aliceAndBob : World :=
  World.after [.accept 1, .recv 1 (registerFrame "alice") allOk,
    .accept 2, .recv 2 (registerFrame "bob") allOk]

/-- The state `aliceAndBob` with a third connection, 3, accepted and waiting
for its first frame. -/
def aliceBobAndFresh : World :=
  World.after [.accept 1, .recv 1 (registerFrame "alice") allOk,
    .accept 2, .recv 2 (registerFrame "bob") allOk, .accept 3]

/-- Two sessions under one identity: connection 1 registered as `alice`, then
connection 2 registered as `alice` too. -/
def aliceTwice : World :=
  World.after [.accept 1, .recv 1 (registerFrame "alice") allOk,
    .accept 2, .recv 2 (registerFrame "alice") allOk]

theorem marshalMessage_eq (m : Message) (p : Json) (hp : m.Payload = some p) (hf : m.From ≠ "") :
    marshalMessage m
      = .ok (some (.obj [("type", .str m.Typ), ("payload", p), ("from", .str m.From)])) := by
  simp [marshalMessage, hp, hf]

theorem unmarshalMessage_stamped (ty : String) (p : Json) (f : String) :
    unmarshalMessage (some (.obj [("type", .str ty), ("payload", p), ("from", .str f)]))
      = .ok ⟨ty, some p, f⟩ := by
  have h1 : keyMatches "type" "type" = true := by decide
  have h2 : keyMatches "type" "payload" = false := by decide
  have h3 : keyMatches "payload" "payload" = true := by decide
  have h4 : keyMatches "type" "from" = false := by decide
  have h5 : keyMatches "payload" "from" = false := by decide
  have h6 : keyMatches "from" "from" = true := by decide
  simp [unmarshalMessage, decodeStruct, decodeObject, Message.setField, storeString,
    h1, h2, h3, h4, h5, h6]

theorem unmarshalMessage_unstamped (ty : String) (p : Json) :
    unmarshalMessage (some (.obj [("type", .str ty), ("payload", p)]))
      = .ok ⟨ty, some p, ""⟩ := by
  have h1 : keyMatches "type" "type" = true := by decide
  have h2 : keyMatches "type" "payload" = false := by decide
  have h3 : keyMatches "payload" "payload" = true := by decide
  simp [unmarshalMessage, decodeStruct, decodeObject, Message.setField, storeString,
    h1, h2, h3]

theorem unmarshalForwardPayload_none : unmarshalForwardPayload none = .error .malformed := rfl

theorem unmarshalForwardPayload_some (data : Bytes) (fp : ForwardPayload)
    (h : unmarshalForwardPayload data = .ok fp) : ∃ p, data = some p := by
  cases data with
  | none => simp [unmarshalForwardPayload_none] at h
  | some p => exact ⟨p, rfl⟩

/-! ## Lemmas on the registry -/

theorem loadOrStore_then_store (m : Registry) (u : String) (c : Conn) :
    (if (m.LoadOrStore u c).1.2 then (m.LoadOrStore u c).2.Store u c else (m.LoadOrStore u c).2)
      = m.Store u c := by
  unfold Registry.LoadOrStore
  cases h : m u <;> simp

theorem store_same (m : Registry) (u : String) (c : Conn) : (m.Store u c) u = some c := by
  simp [Registry.Store]

theorem store_other (m : Registry) (u k : String) (c : Conn) (h : k ≠ u) :
    (m.Store u c) k = m k := by
  simp [Registry.Store, h]

theorem delete_same (m : Registry) (u : String) : (m.Delete u) u = none := by
  simp [Registry.Delete]

theorem delete_other (m : Registry) (u k : String) (h : k ≠ u) : (m.Delete u) k = m k := by
  simp [Registry.Delete, h]

/-! ## Lemmas on `registerClient` and the loop body -/

theorem registerClient_ok (s : Server) (conn : Conn) (rd : ReadResult) (st u : String)
    (h : IsRegistration rd u) :
    registerClient s conn rd st = (none, ⟨s.clients.Store u conn⟩, u) := by
  obtain ⟨data, msg, rfl, hm, hty, hp, hu⟩ := h
  simp [registerClient, hm, hty, hp, hu, loadOrStore_then_store]

theorem registerClient_cases (s : Server) (conn : Conn) (rd : ReadResult) (st : String) :
    (∃ e, registerClient s conn rd st = (some e, s, st)) ∨ (∃ u, IsRegistration rd u) := by
  rcases rd with e | ⟨msgType, data⟩
  · exact Or.inl ⟨_, rfl⟩
  · by_cases hmt : msgType = .MessageText
    · subst hmt
      cases hm : unmarshalMessage data with
      | error e => exact Or.inl ⟨logErrorf, by simp [registerClient, hm]⟩
      | ok msg =>
        by_cases hty : msg.Typ = "register"
        · cases hp : unmarshalRegisterPayload msg.Payload with
          | error e => exact Or.inl ⟨logErrorf, by simp [registerClient, hm, hty, hp]⟩
          | ok payload =>
            by_cases hu : payload.UserID = ""
            · exact Or.inl ⟨logErrorf, by simp [registerClient, hm, hty, hp, hu]⟩
            · exact Or.inr ⟨payload.UserID, data, msg, rfl, hm, hty, hp, hu⟩
        · exact Or.inl ⟨logErrorf, by simp [registerClient, hm, hty]⟩
    · exact Or.inl ⟨logErrorf, by simp [registerClient, hmt]⟩

theorem sendErrorToClient_server (s : Server) (wr : Conn → Bool) (a b c : String) :
    (sendErrorToClient s wr a b c).1 = s := by
  unfold sendErrorToClient marshalErrorPayload marshalMessage
  simp only
  cases s.clients.Load a <;> rfl

theorem sendMessageToClient_server (s : Server) (wr : Conn → Bool) (a b : String) (d : Bytes) :
    (sendMessageToClient s wr a b d).1 = s := by
  unfold sendMessageToClient
  cases s.clients.Load a
  · exact sendErrorToClient_server s wr _ _ _
  · rfl

theorem loopBody_server (s : Server) (wr : Conn → Bool) (uid : String) (rd : ReadResult) :
    (loopBody s wr uid rd).1 = s := by
  unfold loopBody
  split
  · rfl
  · split
    · rfl
    · split
      · rfl
      · dsimp only
        split
        · split
          · rfl
          · split
            · rfl
            · exact sendMessageToClient_server s wr _ _ _
        · split <;> rfl

theorem loopBody_exit_iff (s : Server) (wr : Conn → Bool) (uid : String) (rd : ReadResult) :
    (loopBody s wr uid rd).2.2 = .exit ↔ ∃ e, rd = .error e := by
  unfold loopBody
  split
  · simp
  · split
    · simp
    · split
      · simp
      · dsimp only
        split
        · split
          · simp
          · split <;> simp
        · split <;> simp

/-! ## Lemmas on `handleWebSocket` -/

theorem handleWebSocket_register (s : Server) (wr : Conn → Bool) (conn : Conn) (st u : String)
    (rd : ReadResult) (h : IsRegistration rd u) :
    handleWebSocket s wr conn ⟨st, .handshake⟩ rd
      = (⟨s.clients.Store u conn⟩, ⟨u, .loop⟩, []) := by
  simp [handleWebSocket, registerClient_ok s conn rd st u h]

theorem handleWebSocket_reject (s : Server) (wr : Conn → Bool) (conn : Conn) (st : String)
    (rd : ReadResult) (e : GoError) (h : registerClient s conn rd st = (some e, s, st)) :
    handleWebSocket s wr conn ⟨st, .handshake⟩ rd
      = ((deferredCleanup s conn st).1, ⟨st, .closed⟩,
          [Event.close conn StatusPolicyViolation "Registration required",
           Event.close conn StatusNormalClosure "Connection closed by server"]) := by
  simp [handleWebSocket, h, deferredCleanup]

theorem handleWebSocket_loop_ok (s : Server) (wr : Conn → Bool) (conn : Conn) (uid : String)
    (f : MessageType × Bytes) :
    handleWebSocket s wr conn ⟨uid, .loop⟩ (.ok f)
      = (s, ⟨uid, .loop⟩, (loopBody s wr uid (.ok f)).2.1) := by
  have h1 := loopBody_server s wr uid (.ok f)
  have h2 : (loopBody s wr uid (.ok f)).2.2 = .next := by
    cases h : (loopBody s wr uid (.ok f)).2.2 with
    | next => rfl
    | exit => simp [loopBody_exit_iff] at h
  rcases hb : loopBody s wr uid (.ok f) with ⟨s1, evs, ctl⟩
  rw [hb] at h1 h2
  simp only at h1 h2
  subst h1 h2
  simp [handleWebSocket, hb]

theorem handleWebSocket_loop_error (s : Server) (wr : Conn → Bool) (conn : Conn) (uid : String)
    (e : String) :
    handleWebSocket s wr conn ⟨uid, .loop⟩ (.error e)
      = ((deferredCleanup s conn uid).1, ⟨uid, .closed⟩,
          [Event.close conn StatusNormalClosure "Connection closed by server"]) := by
  simp [handleWebSocket, loopBody, deferredCleanup]

theorem deferredCleanup_empty (s : Server) (conn : Conn) : (deferredCleanup s conn "").1 = s := by
  simp [deferredCleanup]

theorem deferredCleanup_bound (s : Server) (conn : Conn) (uid : String) (h : uid ≠ "") :
    (deferredCleanup s conn uid).1 = ⟨s.clients.Delete uid⟩ := by
  simp [deferredCleanup, h]

/-! ## The lifecycle invariant -/

theorem init_inv : World.init.Inv := by
  refine ⟨?_, ?_, ?_⟩ <;> intro a b h <;> simp [World.init, newServer] at h

theorem step_recv_eq (w w' : World) (conn : Conn) (rd : ReadResult) (wr : Conn → Bool)
    (h : w.step (.recv conn rd wr) = some w') :
    ∃ st, w.sessions conn = some st ∧ st.phase ≠ .closed ∧
      w' = { server := (handleWebSocket w.server wr conn st rd).1,
             sessions := fun c =>
               if c = conn then some (handleWebSocket w.server wr conn st rd).2.1
               else w.sessions c,
             trace := w.trace ++ (handleWebSocket w.server wr conn st rd).2.2 } := by
  simp only [World.step] at h
  cases hs : w.sessions conn with
  | none => simp [hs] at h
  | some st =>
    simp only [hs] at h
    by_cases hp : st.phase = .closed
    · simp [hp] at h
    · simp only [hp, if_false] at h
      exact ⟨st, rfl, hp, (Option.some.inj h).symm⟩

theorem step_recv_of (w : World) (conn : Conn) (rd : ReadResult) (wr : Conn → Bool)
    (st : Session) (hs : w.sessions conn = some st) (hp : st.phase ≠ .closed) :
    w.step (.recv conn rd wr)
      = some { server := (handleWebSocket w.server wr conn st rd).1,
               sessions := fun c =>
                 if c = conn then some (handleWebSocket w.server wr conn st rd).2.1
                 else w.sessions c,
               trace := w.trace ++ (handleWebSocket w.server wr conn st rd).2.2 } := by
  simp [World.step, hs, hp]

theorem step_inv (w w' : World) (a : Action) (hi : w.Inv) (h : w.step a = some w') :
    w'.Inv := by
  cases a with
  | accept conn =>
    simp only [World.step] at h
    cases hs : w.sessions conn with
    | some st => simp [hs] at h
    | none =>
      simp only [hs] at h
      have hw := (Option.some.inj h).symm
      subst hw
      refine ⟨?_, ?_, ?_⟩
      · intro u c hc
        have h1 := hi.entry u c hc
        have hne : c ≠ conn := by
          rintro rfl
          simp [hs] at h1
        simp [hne, h1]
      · intro c st hc hp
        by_cases hcc : c = conn
        · simp only [hcc, if_true] at hc
          have := (Option.some.inj hc).symm
          subst this
          simp at hp
        · simp only [hcc, if_false] at hc
          exact hi.bound c st hc hp
      · intro c st hc hp
        by_cases hcc : c = conn
        · simp only [hcc, if_true] at hc
          have := (Option.some.inj hc).symm
          subst this
          rfl
        · simp only [hcc, if_false] at hc
          exact hi.unbound c st hc hp
  | recv conn rd wr =>
    obtain ⟨st, hs, hp, rfl⟩ := step_recv_eq w w' conn rd wr h
    rcases st with ⟨uid, ph⟩
    cases ph with
    | closed => exact absurd rfl hp
    | handshake =>
      have hu : uid = "" := hi.unbound conn _ hs rfl
      subst hu
      rcases registerClient_cases w.server conn rd "" with ⟨e, he⟩ | ⟨u, hr⟩
      · rw [handleWebSocket_reject _ _ _ _ _ e he, deferredCleanup_empty]
        refine ⟨?_, ?_, ?_⟩
        · intro u c hc
          have h1 := hi.entry u c hc
          have hne : c ≠ conn := by
            rintro rfl
            simp [hs] at h1
          simp [hne, h1]
        · intro c st hc hp'
          by_cases hcc : c = conn
          · simp only [hcc, if_true] at hc
            have := (Option.some.inj hc).symm
            subst this
            simp at hp'
          · simp only [hcc, if_false] at hc
            exact hi.bound c st hc hp'
        · intro c st hc hp'
          by_cases hcc : c = conn
          · simp only [hcc, if_true] at hc
            have := (Option.some.inj hc).symm
            subst this
            simp at hp'
          · simp only [hcc, if_false] at hc
            exact hi.unbound c st hc hp'
      · rw [handleWebSocket_register _ _ _ _ u _ hr]
        have hune : u ≠ "" := by
          obtain ⟨_, _, _, _, _, _, hu⟩ := hr
          exact hu
        refine ⟨?_, ?_, ?_⟩
        · intro k c hc
          simp only [Registry.Store] at hc
          by_cases hk : k = u
          · simp only [hk, if_true] at hc
            have := (Option.some.inj hc).symm
            subst this
            simp [hk]
          · simp only [hk, if_false] at hc
            have h1 := hi.entry k c hc
            have hne : c ≠ conn := by
              rintro rfl
              simp [hs] at h1
            simp [hne, h1]
        · intro c st hc hp'
          by_cases hcc : c = conn
          · simp only [hcc, if_true] at hc
            have := (Option.some.inj hc).symm
            subst this
            exact hune
          · simp only [hcc, if_false] at hc
            exact hi.bound c st hc hp'
        · intro c st hc hp'
          by_cases hcc : c = conn
          · simp only [hcc, if_true] at hc
            have := (Option.some.inj hc).symm
            subst this
            simp at hp'
          · simp only [hcc, if_false] at hc
            exact hi.unbound c st hc hp'
    | loop =>
      have hune : uid ≠ "" := hi.bound conn _ hs rfl
      rcases rd with e | f
      · rw [handleWebSocket_loop_error, deferredCleanup_bound _ _ _ hune]
        refine ⟨?_, ?_, ?_⟩
        · intro k c hc
          simp only [Registry.Delete] at hc
          by_cases hk : k = uid
          · simp [hk] at hc
          · simp only [hk, if_false] at hc
            have h1 := hi.entry k c hc
            have hne : c ≠ conn := by
              rintro rfl
              rw [hs] at h1
              exact hk (by simpa using (Option.some.inj h1).symm)
            simp [hne, h1]
        · intro c st hc hp'
          by_cases hcc : c = conn
          · simp only [hcc, if_true] at hc
            have := (Option.some.inj hc).symm
            subst this
            simp at hp'
          · simp only [hcc, if_false] at hc
            exact hi.bound c st hc hp'
        · intro c st hc hp'
          by_cases hcc : c = conn
          · simp only [hcc, if_true] at hc
            have := (Option.some.inj hc).symm
            subst this
            simp at hp'
          · simp only [hcc, if_false] at hc
            exact hi.unbound c st hc hp'
      · rw [handleWebSocket_loop_ok]
        refine ⟨?_, ?_, ?_⟩
        · intro k c hc
          have h1 := hi.entry k c hc
          by_cases hcc : c = conn
          · subst hcc
            rw [hs] at h1
            simp only [if_true]
            exact h1
          · simp [hcc, h1]
        · intro c st hc hp'
          by_cases hcc : c = conn
          · simp only [hcc, if_true] at hc
            have := (Option.some.inj hc).symm
            subst this
            exact hune
          · simp only [hcc, if_false] at hc
            exact hi.bound c st hc hp'
        · intro c st hc hp'
          by_cases hcc : c = conn
          · simp only [hcc, if_true] at hc
            have := (Option.some.inj hc).symm
            subst this
            simp at hp'
          · simp only [hcc, if_false] at hc
            exact hi.unbound c st hc hp'

theorem run_inv (acts : List Action) (w w' : World) (hi : w.Inv)
    (h : World.run acts w = some w') : w'.Inv := by
  induction acts generalizing w with
  | nil =>
    simp only [World.run] at h
    exact (Option.some.inj h) ▸ hi
  | cons a rest ih =>
    simp only [World.run] at h
    cases hs : w.step a with
    | none => simp [hs] at h
    | some w1 =>
      simp only [hs] at h
      exact ih w1 (step_inv w w1 a hi hs) h

theorem reachable_inv (w : World) (h : w.Reachable) : w.Inv := by
  obtain ⟨acts, h⟩ := h
  exact run_inv acts World.init w init_inv h

theorem after_reachable (acts : List Action) (h : (World.run acts World.init).isSome = true) :
    (World.after acts).Reachable := by
  refine ⟨acts, ?_⟩
  unfold World.after
  cases hr : World.run acts World.init with
  | none => simp [hr] at h
  | some w => rfl

/-! ## Lemmas on forwarding -/

theorem loopBody_forward (s : Server) (wr : Conn → Bool) (uid : String) (data : Bytes)
    (msg : Message) (hmsg : unmarshalMessage data = .ok msg)
    (hty : msg.Typ = "offer" ∨ msg.Typ = "answer" ∨ msg.Typ = "candidate")
    (fp : ForwardPayload) (hpay : unmarshalForwardPayload msg.Payload = .ok fp)
    (p : Json) (hp : msg.Payload = some p) (hu : uid ≠ "") :
    (loopBody s wr uid (.ok (.MessageText, data))).2.1
      = (sendMessageToClient s wr fp.TargetUserID uid
          (some (.obj [("type", .str msg.Typ), ("payload", p), ("from", .str uid)]))).2 := by
  have hm := marshalMessage_eq { msg with From := uid } p hp hu
  simp only [loopBody, hmsg, hty, hpay, hm]
  simp

theorem sendMessageToClient_found (s : Server) (wr : Conn → Bool) (t sender : String)
    (d : Bytes) (tc : Conn) (h : s.clients.Load t = some tc) :
    sendMessageToClient s wr t sender d = (s, [Event.write tc .MessageText d (wr tc)]) := by
  simp [sendMessageToClient, h]

theorem sendMessageToClient_missing (s : Server) (wr : Conn → Bool) (t sender : String)
    (d : Bytes) (h : s.clients.Load t = none) :
    sendMessageToClient s wr t sender d
      = (s, match s.clients.Load sender with
            | some conn =>
              [Event.write conn .MessageText
                (some (.obj [("type", .str "error"),
                  ("payload", .obj [("message", .str "User not found or offline"),
                    ("targetUser", .str t)])]))
                (wr conn)]
            | none => []) := by
  simp only [sendMessageToClient, h, sendErrorToClient, marshalErrorPayload, marshalMessage]
  cases s.clients.Load sender <;> simp

theorem sessions_update_self (w : World) (c : Conn) (st : Session)
    (h : w.sessions c = some st) :
    (fun c' => if c' = c then some st else w.sessions c') = w.sessions := by
  funext c'
  by_cases hc : c' = c
  · simp [hc, h]
  · simp [hc]

/-! ## The claims -/

/-- C1. Forwarding with from-stamping. In every reachable state, when a
session in its loop with bound identity `sid` receives a text frame that
decodes to a message of type `offer`, `answer` or `candidate` whose payload
decodes with `targetUserId = t`, and the registry holds channel `tc` for `t`,
the step performs exactly one call on a channel: a write on `tc` of the object
with members `type` (unchanged), `payload` (the client's payload value as it
is) and `from = sid`, whatever `from` the client supplied. The `from` member
is present because `sid` is not empty, and the written message decodes to the
message with that type, that payload and `From = sid`. -/
theorem forward_stamps_from (w : World) (hw : w.Reachable) (c : Conn) (sid : String)
    (hs : w.sessions c = some ⟨sid, .loop⟩)
    (data : Bytes) (msg : Message) (hmsg : unmarshalMessage data = .ok msg)
    (hty : msg.Typ = "offer" ∨ msg.Typ = "answer" ∨ msg.Typ = "candidate")
    (t : String) (hpay : unmarshalForwardPayload msg.Payload = .ok ⟨t⟩)
    (tc : Conn) (ht : w.server.clients.Load t = some tc) (wr : Conn → Bool) :
    sid ≠ "" ∧ ∃ p, msg.Payload = some p ∧
      w.step (.recv c (.ok (.MessageText, data)) wr)
        = some { server := w.server, sessions := w.sessions,
                 trace := w.trace ++ [Event.write tc .MessageText
                   (some (.obj [("type", .str msg.Typ), ("payload", p), ("from", .str sid)]))
                   (wr tc)] } ∧
      unmarshalMessage (some (.obj [("type", .str msg.Typ), ("payload", p), ("from", .str sid)]))
        = .ok ⟨msg.Typ, some p, sid⟩ := by
  have hsid : sid ≠ "" := (reachable_inv w hw).bound c _ hs rfl
  obtain ⟨p, hp⟩ := unmarshalForwardPayload_some _ _ hpay
  refine ⟨hsid, p, hp, ?_, unmarshalMessage_stamped _ _ _⟩
  rw [step_recv_of w c _ wr _ hs (by simp), handleWebSocket_loop_ok,
    loopBody_forward w.server wr sid data msg hmsg hty ⟨t⟩ hpay p hp hsid,
    sendMessageToClient_found _ _ _ _ _ tc ht, sessions_update_self w c _ hs]

/-- C1, on the scenario of the specification: `alice` (connection 1) sends an
offer for `bob` (connection 2). -/
theorem forward_stamps_from_witness :
    "alice" ≠ "" ∧ ∃ p,
      (some (Json.obj [("targetUserId", .str "bob"), ("sdp", .str "...")]) : Bytes) = some p ∧
      aliceAndBob.step (.recv 1 (offerFrame "bob") allOk)
        = some { server := aliceAndBob.server, sessions := aliceAndBob.sessions,
                 trace := aliceAndBob.trace ++ [Event.write 2 .MessageText
                   (some (.obj [("type", .str "offer"), ("payload", p), ("from", .str "alice")]))
                   (allOk 2)] } ∧
      unmarshalMessage (some (.obj [("type", .str "offer"), ("payload", p), ("from", .str "alice")]))
        = .ok ⟨"offer", some p, "alice"⟩ :=
  forward_stamps_from aliceAndBob (after_reachable _ rfl) 1 "alice" rfl
    (some (.obj [("type", .str "offer"),
      ("payload", .obj [("targetUserId", .str "bob"), ("sdp", .str "...")])]))
    ⟨"offer", some (.obj [("targetUserId", .str "bob"), ("sdp", .str "...")]), ""⟩ rfl
    (Or.inl rfl) "bob" rfl 2 rfl allOk

/-- C2. Content of the unknown-target error envelope. When delivery finds
the target `t` absent from the registry, the message built by
`sendErrorToClient` and written on the channel held for the sender is the
object with exactly the members `type = "error"` and `payload`, the payload
being the object with exactly the members
`message = "User not found or offline"` and `targetUser = t`; it has no
`from` member, and decodes to a message with an empty `From`. -/
theorem unknown_target_error_content (s : Server) (wr : Conn → Bool) (t sender : String)
    (d : Bytes) (conn : Conn) (habs : s.clients.Load t = none)
    (hsender : s.clients.Load sender = some conn) :
    sendMessageToClient s wr t sender d
      = (s, [Event.write conn .MessageText
              (some (.obj [("type", .str "error"),
                ("payload", .obj [("message", .str "User not found or offline"),
                  ("targetUser", .str t)])]))
              (wr conn)]) ∧
    sendErrorToClient s wr sender t "User not found or offline"
      = (s, [Event.write conn .MessageText
              (some (.obj [("type", .str "error"),
                ("payload", .obj [("message", .str "User not found or offline"),
                  ("targetUser", .str t)])]))
              (wr conn)]) ∧
    unmarshalMessage (some (.obj [("type", .str "error"),
        ("payload", .obj [("message", .str "User not found or offline"),
          ("targetUser", .str t)])]))
      = .ok ⟨"error", some (.obj [("message", .str "User not found or offline"),
          ("targetUser", .str t)]), ""⟩ := by
  refine ⟨?_, ?_, unmarshalMessage_unstamped _ _⟩
  · rw [sendMessageToClient_missing s wr t sender d habs, hsender]
  · simp [sendErrorToClient, marshalErrorPayload, marshalMessage, hsender]

/-- C2, for the target `carol` that never registered, from `alice`. -/
theorem unknown_target_error_content_witness :
    sendMessageToClient aliceAndBob.server allOk "carol" "alice" none
      = (aliceAndBob.server, [Event.write 1 .MessageText
              (some (.obj [("type", .str "error"),
                ("payload", .obj [("message", .str "User not found or offline"),
                  ("targetUser", .str "carol")])]))
              (allOk 1)]) ∧
    sendErrorToClient aliceAndBob.server allOk "alice" "carol" "User not found or offline"
      = (aliceAndBob.server, [Event.write 1 .MessageText
              (some (.obj [("type", .str "error"),
                ("payload", .obj [("message", .str "User not found or offline"),
                  ("targetUser", .str "carol")])]))
              (allOk 1)]) ∧
    unmarshalMessage (some (.obj [("type", .str "error"),
        ("payload", .obj [("message", .str "User not found or offline"),
          ("targetUser", .str "carol")])]))
      = .ok ⟨"error", some (.obj [("message", .str "User not found or offline"),
          ("targetUser", .str "carol")]), ""⟩ :=
  unknown_target_error_content aliceAndBob.server allOk "carol" "alice" none 1 rfl rfl

/-- C4. Handshake rejection and gating. For every session waiting for its
first frame and every first frame that is not a text frame, or does not decode
to an envelope, or whose type is not `register`, or whose payload does not
decode, or whose `userId` is empty or missing: `registerClient` returns an
error and leaves the registry and the identity variable as they were; the
step leaves the registry unchanged (the deferred function deletes nothing),
keeps the bound identity empty, calls only `Close` on the session's own
channel, first with the policy-violation status and then with the normal one,
writes nothing on any channel, and ends the session, which never reads
again: the loop is not entered. -/
theorem handshake_rejection (w : World) (c : Conn)
    (hs : w.sessions c = some ⟨"", .handshake⟩) (msgType : MessageType) (data : Bytes)
    (hbad : IsRejectedFrame msgType data) (wr : Conn → Bool) :
    registerClient w.server c (.ok (msgType, data)) "" = (some logErrorf, w.server, "") ∧
    ∃ w', w.step (.recv c (.ok (msgType, data)) wr) = some w' ∧
      w'.server = w.server ∧
      w'.sessions c = some ⟨"", .closed⟩ ∧
      (∀ c', c' ≠ c → w'.sessions c' = w.sessions c') ∧
      w'.trace = w.trace ++
        [Event.close c StatusPolicyViolation "Registration required",
         Event.close c StatusNormalClosure "Connection closed by server"] ∧
      ∀ rd wr', w'.step (.recv c rd wr') = none := by
  have hreg : registerClient w.server c (.ok (msgType, data)) ""
      = (some logErrorf, w.server, "") := by
    rcases hbad with h | ⟨e, h⟩ | ⟨msg, hm, h | ⟨e, h⟩ | ⟨payload, hp, hu⟩⟩
    · simp [registerClient, h]
    · by_cases hmt : msgType = .MessageText <;> simp [registerClient, h, hmt]
    · by_cases hmt : msgType = .MessageText <;> simp [registerClient, hm, h, hmt]
    · by_cases hmt : msgType = .MessageText
      · by_cases hty : msg.Typ = "register" <;> simp [registerClient, hm, h, hmt, hty]
      · simp [registerClient, hmt]
    · by_cases hmt : msgType = .MessageText
      · by_cases hty : msg.Typ = "register" <;> simp [registerClient, hm, hp, hu, hmt, hty]
      · simp [registerClient, hmt]
  refine ⟨hreg, _, step_recv_of w c _ wr _ hs (by simp), ?_, ?_, ?_, ?_, ?_⟩
  · rw [handleWebSocket_reject _ _ _ _ _ _ hreg, deferredCleanup_empty]
  · rw [handleWebSocket_reject _ _ _ _ _ _ hreg]
    simp
  · intro c' hc'
    simp [hc']
  · rw [handleWebSocket_reject _ _ _ _ _ _ hreg]
  · intro rd wr'
    rw [handleWebSocket_reject _ _ _ _ _ _ hreg]
    simp [World.step]

/-- C4, for a first frame that is an offer addressed to the registered
identity `bob`, on the fresh connection 3. -/
theorem handshake_rejection_witness :
    registerClient aliceBobAndFresh.server 3
      (.ok (.MessageText, some (.obj [("type", .str "offer"),
        ("payload", .obj [("targetUserId", .str "bob"), ("sdp", .str "...")])]))) ""
      = (some logErrorf, aliceBobAndFresh.server, "") ∧
    ∃ w', aliceBobAndFresh.step
        (.recv 3 (.ok (.MessageText, some (.obj [("type", .str "offer"),
          ("payload", .obj [("targetUserId", .str "bob"), ("sdp", .str "...")])]))) allOk)
        = some w' ∧
      w'.server = aliceBobAndFresh.server ∧
      w'.sessions 3 = some ⟨"", .closed⟩ ∧
      (∀ c', c' ≠ 3 → w'.sessions c' = aliceBobAndFresh.sessions c') ∧
      w'.trace = aliceBobAndFresh.trace ++
        [Event.close 3 StatusPolicyViolation "Registration required",
         Event.close 3 StatusNormalClosure "Connection closed by server"] ∧
      ∀ rd wr', w'.step (.recv 3 rd wr') = none :=
  handshake_rejection aliceBobAndFresh 3 rfl .MessageText
    (some (.obj [("type", .str "offer"),
      ("payload", .obj [("targetUserId", .str "bob"), ("sdp", .str "...")])]))
    (Or.inr (Or.inr ⟨⟨"offer",
      some (.obj [("targetUserId", .str "bob"), ("sdp", .str "...")]), ""⟩, rfl,
      Or.inl (by decide)⟩)) allOk

theorem registerAll_lookup (regs : List (String × Conn × ReadResult))
    (hregs : ∀ x ∈ regs, IsRegistration x.2.2 x.1) (s : Server) (u : String) :
    (registerAll (regs.map (fun x => x.2)) s).clients u
      = match lastRegistered u regs with
        | some c => some c
        | none => s.clients u := by
  induction regs generalizing s with
  | nil => rfl
  | cons x rest ih =>
    obtain ⟨v, conn, rd⟩ := x
    have hx : IsRegistration rd v := hregs (v, conn, rd) (List.mem_cons_self _ _)
    have hrest : ∀ y ∈ rest, IsRegistration y.2.2 y.1 :=
      fun y hy => hregs y (List.mem_cons_of_mem _ hy)
    simp only [List.map_cons, registerAll, registerClient_ok s conn rd "" v hx, lastRegistered]
    rw [ih hrest]
    cases lastRegistered u rest with
    | some c => rfl
    | none =>
      by_cases hv : v = u
      · simp [hv, Registry.Store]
      · have hv' : u ≠ v := fun h => hv h.symm
        simp [hv, hv', Registry.Store]

/-- C5. Successful registration is an insert-or-replace. For every registry
state, every channel and every first text frame that decodes to a `register`
with the non-empty `userId` `u`, `registerClient` returns no error, writes
`u` to the identity variable and leaves the registry as the old one with `u`
stored to the channel (the `LoadOrStore`, then `Store` when loaded, is one
`Store`): the lookup of `u` gives the channel whether or not `u` was mapped
before, and every other identity is mapped as before. After any sequence of
such registrations every identity maps to the channel registered last under
it, or as before the sequence when none was. -/
theorem registration_upsert (s : Server) (conn : Conn) (rd : ReadResult) (u : String)
    (h : IsRegistration rd u) (regs : List (String × Conn × ReadResult))
    (hregs : ∀ x ∈ regs, IsRegistration x.2.2 x.1) :
    (registerClient s conn rd "" = (none, ⟨s.clients.Store u conn⟩, u) ∧
      (registerClient s conn rd "").2.1.clients.Load u = some conn ∧
      ∀ k, k ≠ u → (registerClient s conn rd "").2.1.clients.Load k = s.clients.Load k) ∧
    ∀ k, (registerAll (regs.map (fun x => x.2)) s).clients.Load k
      = match lastRegistered k regs with
        | some c => some c
        | none => s.clients.Load k := by
  refine ⟨⟨registerClient_ok s conn rd "" u h, ?_, ?_⟩, ?_⟩
  · rw [registerClient_ok s conn rd "" u h]
    exact store_same _ _ _
  · intro k hk
    rw [registerClient_ok s conn rd "" u h]
    exact store_other _ _ _ _ hk
  · intro k
    exact registerAll_lookup regs hregs s k

theorem registerFrame_isRegistration (u : String) (hu : u ≠ "") :
    IsRegistration (registerFrame u) u := by
  refine ⟨_, ⟨"register", some (.obj [("userId", .str u)]), ""⟩, rfl, ?_, rfl, ?_, hu⟩
  · exact unmarshalMessage_unstamped _ _
  · have h1 : keyMatches "userId" "userId" = true := by decide
    simp [unmarshalRegisterPayload, decodeStruct, decodeObject, RegisterPayload.setField,
      storeString, h1]

/-- C5, on a registry where `alice` is already mapped (to connection 1):
connection 7 registers `alice`; and for the sequence `alice` on 1, `bob` on 2,
`alice` on 3. -/
theorem registration_upsert_witness :
    (registerClient aliceAndBob.server 7 (registerFrame "alice") ""
        = (none, ⟨aliceAndBob.server.clients.Store "alice" 7⟩, "alice") ∧
      (registerClient aliceAndBob.server 7 (registerFrame "alice") "").2.1.clients.Load "alice"
        = some 7 ∧
      ∀ k, k ≠ "alice" →
        (registerClient aliceAndBob.server 7 (registerFrame "alice") "").2.1.clients.Load k
          = aliceAndBob.server.clients.Load k) ∧
    ∀ k, (registerAll ([("alice", 1, registerFrame "alice"), ("bob", 2, registerFrame "bob"),
        ("alice", 3, registerFrame "alice")].map (fun x => x.2)) aliceAndBob.server).clients.Load k
      = match lastRegistered k [("alice", 1, registerFrame "alice"),
          ("bob", 2, registerFrame "bob"), ("alice", 3, registerFrame "alice")] with
        | some c => some c
        | none => aliceAndBob.server.clients.Load k :=
  registration_upsert aliceAndBob.server 7 (registerFrame "alice") "alice"
    (registerFrame_isRegistration "alice" (by decide))
    [("alice", 1, registerFrame "alice"), ("bob", 2, registerFrame "bob"),
      ("alice", 3, registerFrame "alice")]
    (by
      intro x hx
      simp only [List.mem_cons, List.mem_singleton, List.not_mem_nil, or_false] at hx
      rcases hx with rfl | rfl | rfl
      · exact registerFrame_isRegistration "alice" (by decide)
      · exact registerFrame_isRegistration "bob" (by decide)
      · exact registerFrame_isRegistration "alice" (by decide))

theorem registerClient_bound (s s1 : Server) (conn : Conn) (rd : ReadResult) (u : String)
    (h : registerClient s conn rd "" = (none, s1, u)) : u ≠ "" := by
  rcases registerClient_cases s conn rd "" with ⟨e, he⟩ | ⟨v, hv⟩
  · rw [he] at h
    simp at h
  · have hu : v ≠ "" := by
      obtain ⟨_, _, _, _, _, _, hu⟩ := hv
      exact hu
    rw [registerClient_ok s conn rd "" v hv] at h
    have : v = u := by
      have h2 := congrArg (fun r => r.2.2) h
      simpa using h2
    exact this ▸ hu

/-- C6 fails as stated. In the reachable state `aliceTwice` connection 1
registered `alice` and connection 2 registered `alice` later, so the registry
maps `alice` to connection 2. When the read of connection 1 fails and its
session returns, the registry no longer maps `alice` at all: the entry of the
newer session is removed by the teardown of the older one. -/
theorem teardown_keeps_newer_counterexample :
    aliceTwice.Reachable ∧
    aliceTwice.sessions 1 = some ⟨"alice", .loop⟩ ∧
    aliceTwice.sessions 2 = some ⟨"alice", .loop⟩ ∧
    aliceTwice.server.clients.Load "alice" = some 2 ∧
    (aliceTwice.step (.recv 1 (.error "EOF") allOk)).map
        (fun w => w.server.clients.Load "alice") = some none ∧
    (aliceTwice.step (.recv 1 (.error "EOF") allOk)).map
        (fun w => w.server.clients.Load "alice") ≠ some (some 2) := by
  refine ⟨after_reachable _ rfl, rfl, rfl, rfl, rfl, ?_⟩
  have h : (aliceTwice.step (.recv 1 (.error "EOF") allOk)).map
      (fun w => w.server.clients.Load "alice") = some none := rfl
  rw [h]
  simp

/-- C6, amended. The teardown of a session deletes the entry of its bound
identity whatever channel that entry points at. In every reachable state
where session `a` is in its loop with bound identity `u` and the registry
maps `u` to a channel `b` (the channel of `a` or, after a later registration
of `u`, the channel of another session), when the loop of `a` exits and its
teardown completes `u` is absent from the registry, every other identity is
mapped as before, and every other session is as before. -/
theorem teardown_deletes_any_entry (w : World) (hw : w.Reachable) (a : Conn) (u : String)
    (hs : w.sessions a = some ⟨u, .loop⟩) (b : Conn) (hb : w.server.clients.Load u = some b)
    (e : String) (wr : Conn → Bool) :
    ∃ w', w.step (.recv a (.error e) wr) = some w' ∧
      w'.server.clients.Load u = none ∧
      (∀ k, k ≠ u → w'.server.clients.Load k = w.server.clients.Load k) ∧
      w'.sessions a = some ⟨u, .closed⟩ ∧
      (∀ c, c ≠ a → w'.sessions c = w.sessions c) ∧
      w.sessions b = some ⟨u, .loop⟩ := by
  have hu : u ≠ "" := (reachable_inv w hw).bound a _ hs rfl
  refine ⟨_, step_recv_of w a _ wr _ hs (by simp), ?_, ?_, ?_, ?_,
    (reachable_inv w hw).entry u b hb⟩
  · rw [handleWebSocket_loop_error, deferredCleanup_bound _ _ _ hu]
    exact delete_same _ _
  · intro k hk
    rw [handleWebSocket_loop_error, deferredCleanup_bound _ _ _ hu]
    exact delete_other _ _ _ hk
  · rw [handleWebSocket_loop_error]
    simp
  · intro c hc
    simp [hc]

/-- C6 amended, in the state `aliceTwice`: the teardown of connection 1
removes the entry of `alice`, which points at connection 2. -/
theorem teardown_deletes_any_entry_witness :
    ∃ w', aliceTwice.step (.recv 1 (.error "EOF") allOk) = some w' ∧
      w'.server.clients.Load "alice" = none ∧
      (∀ k, k ≠ "alice" → w'.server.clients.Load k = aliceTwice.server.clients.Load k) ∧
      w'.sessions 1 = some ⟨"alice", .closed⟩ ∧
      (∀ c, c ≠ 1 → w'.sessions c = aliceTwice.sessions c) ∧
      aliceTwice.sessions 2 = some ⟨"alice", .loop⟩ :=
  teardown_deletes_any_entry aliceTwice (after_reachable _ rfl) 1 "alice" rfl 2 rfl "EOF" allOk

/-- C7. Teardown removes by identity. For every session that completed the
handshake with bound identity `u` (the identity written by a successful
`registerClient`) and every registry state at loop exit, the step that leaves
the loop ends with `u` absent from the registry, whether `u` was present or
not, with every other identity mapped as before, and with exactly one call
on a channel, the `Close` of the session's channel with the normal-closure
status, made after the removal; removing again changes nothing. -/
theorem teardown_removes_identity (s0 s1 : Server) (conn : Conn) (rd : ReadResult) (u : String)
    (hreg : registerClient s0 conn rd "" = (none, s1, u)) (s : Server) (e : String)
    (wr : Conn → Bool) :
    handleWebSocket s wr conn ⟨u, .loop⟩ (.error e)
      = (⟨s.clients.Delete u⟩, ⟨u, .closed⟩,
          [Event.close conn StatusNormalClosure "Connection closed by server"]) ∧
    deferredCleanup s conn u
      = (⟨s.clients.Delete u⟩,
          [Event.close conn StatusNormalClosure "Connection closed by server"]) ∧
    (s.clients.Delete u).Load u = none ∧
    (∀ k, k ≠ u → (s.clients.Delete u).Load k = s.clients.Load k) ∧
    (s.clients.Delete u).Delete u = s.clients.Delete u := by
  have hu : u ≠ "" := registerClient_bound s0 s1 conn rd u hreg
  refine ⟨?_, ?_, delete_same _ _, fun k hk => delete_other _ _ _ hk, ?_⟩
  · rw [handleWebSocket_loop_error, deferredCleanup_bound _ _ _ hu]
  · simp [deferredCleanup, hu]
  · funext k
    by_cases hk : k = u <;> simp [Registry.Delete, hk]

/-- C7, for the session of connection 1 that registered `alice` on the empty
registry, leaving its loop in the state `aliceAndBob`. -/
theorem teardown_removes_identity_witness :
    handleWebSocket aliceAndBob.server allOk 1 ⟨"alice", .loop⟩ (.error "EOF")
      = (⟨aliceAndBob.server.clients.Delete "alice"⟩, ⟨"alice", .closed⟩,
          [Event.close 1 StatusNormalClosure "Connection closed by server"]) ∧
    deferredCleanup aliceAndBob.server 1 "alice"
      = (⟨aliceAndBob.server.clients.Delete "alice"⟩,
          [Event.close 1 StatusNormalClosure "Connection closed by server"]) ∧
    (aliceAndBob.server.clients.Delete "alice").Load "alice" = none ∧
    (∀ k, k ≠ "alice" →
      (aliceAndBob.server.clients.Delete "alice").Load k = aliceAndBob.server.clients.Load k) ∧
    (aliceAndBob.server.clients.Delete "alice").Delete "alice"
      = aliceAndBob.server.clients.Delete "alice" :=
  teardown_removes_identity newServer ⟨newServer.clients.Store "alice" 1⟩ 1
    (registerFrame "alice") "alice"
    (registerClient_ok newServer 1 (registerFrame "alice") "" "alice"
      (registerFrame_isRegistration "alice" (by decide)))
    aliceAndBob.server "EOF" allOk

/-- C8. In-loop frames never end the session or change the registry. For
every session in its loop and every result of its read, the step is possible;
when a frame was received (of any kind and content, and whatever the result
of a write made in the step), the registry is exactly as before, the
session is still in its loop with the same bound identity, and every other
session is as before; the session leaves the loop exactly when the read
failed. -/
theorem in_loop_frames_keep_session (w : World) (c : Conn) (sid : String)
    (hs : w.sessions c = some ⟨sid, .loop⟩) (rd : ReadResult) (wr : Conn → Bool) :
    ∃ w', w.step (.recv c rd wr) = some w' ∧
      (∀ msgType data, rd = .ok (msgType, data) →
        w'.server = w.server ∧ w'.sessions = w.sessions ∧
        w'.sessions c = some ⟨sid, .loop⟩ ∧
        (loopBody w.server wr sid rd).2.2 = .next) ∧
      (w'.sessions c = some ⟨sid, .closed⟩ ↔ ∃ e, rd = .error e) ∧
      (w'.sessions c = some ⟨sid, .loop⟩ ↔ ∃ f, rd = .ok f) := by
  refine ⟨_, step_recv_of w c _ wr _ hs (by simp), ?_, ?_, ?_⟩
  · rintro msgType data rfl
    rw [handleWebSocket_loop_ok]
    refine ⟨rfl, sessions_update_self w c _ hs, by simp, ?_⟩
    cases h : (loopBody w.server wr sid (.ok (msgType, data))).2.2 with
    | next => rfl
    | exit => simp [loopBody_exit_iff] at h
  · rcases rd with e | f
    · rw [handleWebSocket_loop_error]
      simp
    · rw [handleWebSocket_loop_ok]
      simp
  · rcases rd with e | f
    · rw [handleWebSocket_loop_error]
      simp
    · rw [handleWebSocket_loop_ok]
      simp

/-- C8, for `alice` sending a second `register` (as `bob`) inside her loop. -/
theorem in_loop_frames_keep_session_witness :
    ∃ w', aliceAndBob.step (.recv 1 (registerFrame "bob") allOk) = some w' ∧
      (∀ msgType data, registerFrame "bob" = .ok (msgType, data) →
        w'.server = aliceAndBob.server ∧ w'.sessions = aliceAndBob.sessions ∧
        w'.sessions 1 = some ⟨"alice", .loop⟩ ∧
        (loopBody aliceAndBob.server allOk "alice" (registerFrame "bob")).2.2 = .next) ∧
      (w'.sessions 1 = some ⟨"alice", .closed⟩ ↔ ∃ e, registerFrame "bob" = .error e) ∧
      (w'.sessions 1 = some ⟨"alice", .loop⟩ ↔ ∃ f, registerFrame "bob" = .ok f) :=
  in_loop_frames_keep_session aliceAndBob 1 "alice" rfl (registerFrame "bob") allOk

/-- C9. Registry lifecycle invariant. In every state reachable from the empty
registry by accepts of fresh channels and steps of the sessions (handshake
success, handshake failure, dispatch of a frame, teardown), every registry
entry `u -> c` belongs to the session that owns channel `c`, and that session
is in its loop (registered, not torn down) with bound identity `u`. So no
entry points at the channel of a session that has returned or has not
registered, and no channel is held under two identities. -/
theorem registry_lifecycle_invariant (w : World) (hw : w.Reachable) :
    (∀ u c, w.server.clients.Load u = some c → w.sessions c = some ⟨u, .loop⟩) ∧
    (∀ u c st, w.server.clients.Load u = some c → w.sessions c = some st →
      st.phase ≠ .closed ∧ st.phase ≠ .handshake ∧ st.registeredUserID = u) ∧
    (∀ u v c, w.server.clients.Load u = some c → w.server.clients.Load v = some c → u = v) := by
  have hi := reachable_inv w hw
  refine ⟨hi.entry, ?_, ?_⟩
  · intro u c st hu hst
    have h := hi.entry u c hu
    rw [hst] at h
    have := Option.some.inj h
    subst this
    simp
  · intro u v c hu hv
    have h1 := hi.entry u c hu
    have h2 := hi.entry v c hv
    rw [h1] at h2
    have := Option.some.inj h2
    simpa using this

/-- C9, in the state `aliceAndBob`, whose registry holds two entries. -/
theorem registry_lifecycle_invariant_witness :
    (∀ u c, aliceAndBob.server.clients.Load u = some c →
      aliceAndBob.sessions c = some ⟨u, .loop⟩) ∧
    (∀ u c st, aliceAndBob.server.clients.Load u = some c →
      aliceAndBob.sessions c = some st →
      st.phase ≠ .closed ∧ st.phase ≠ .handshake ∧ st.registeredUserID = u) ∧
    (∀ u v c, aliceAndBob.server.clients.Load u = some c →
      aliceAndBob.server.clients.Load v = some c → u = v) :=
  registry_lifecycle_invariant aliceAndBob (after_reachable _ rfl)

theorem decodeObject_no_target (kvs : List (String × Json))
    (h : ∀ kv ∈ kvs, keyMatches "targetUserId" kv.1 = false) (p : ForwardPayload) :
    decodeObject ForwardPayload.setField kvs p = .ok p := by
  induction kvs with
  | nil => rfl
  | cons kv rest ih =>
    obtain ⟨k, v⟩ := kv
    have hk : keyMatches "targetUserId" k = false := h (k, v) (List.mem_cons_self _ _)
    simp only [decodeObject, ForwardPayload.setField, hk]
    exact ih (fun kv hkv => h kv (List.mem_cons_of_mem _ hkv))

theorem loopBody_no_payload (s : Server) (wr : Conn → Bool) (uid : String) (data : Bytes)
    (msg : Message) (hmsg : unmarshalMessage data = .ok msg)
    (hty : msg.Typ = "offer" ∨ msg.Typ = "answer" ∨ msg.Typ = "candidate")
    (hp : msg.Payload = none) :
    (loopBody s wr uid (.ok (.MessageText, data))).2.1 = [] := by
  simp [loopBody, hmsg, hty, hp, unmarshalForwardPayload_none]

/-- C10 fails as stated. In the reachable state `aliceAndBob`, when `alice`
(connection 1) sends the offer `{"type":"offer","payload":{"sdp":"x"}}`, whose
payload has no `targetUserId`, the step does not stay silent: it writes on
connection 1 the error envelope with `targetUser = ""`. The same happens for
the offer with payload `null`. -/
theorem forward_without_target_counterexample :
    aliceAndBob.Reachable ∧ aliceAndBob.sessions 1 = some ⟨"alice", .loop⟩ ∧
    (aliceAndBob.step (.recv 1 untargetedOffer allOk)).map (fun w => w.trace)
      = some (aliceAndBob.trace ++ [Event.write 1 .MessageText
          (some (.obj [("type", .str "error"),
            ("payload", .obj [("message", .str "User not found or offline"),
              ("targetUser", .str "")])]))
          true]) ∧
    (aliceAndBob.step (.recv 1 untargetedOffer allOk)).map (fun w => w.trace)
      ≠ some aliceAndBob.trace ∧
    (aliceAndBob.step (.recv 1 nullPayloadOffer allOk)).map (fun w => w.trace)
      = some (aliceAndBob.trace ++ [Event.write 1 .MessageText
          (some (.obj [("type", .str "error"),
            ("payload", .obj [("message", .str "User not found or offline"),
              ("targetUser", .str "")])]))
          true]) ∧
    (aliceAndBob.step (.recv 1 nullPayloadOffer allOk)).map (fun w => w.trace)
      ≠ some aliceAndBob.trace := by
  have h1 : (aliceAndBob.step (.recv 1 untargetedOffer allOk)).map (fun w => w.trace)
      = some (aliceAndBob.trace ++ [Event.write 1 .MessageText
          (some (.obj [("type", .str "error"),
            ("payload", .obj [("message", .str "User not found or offline"),
              ("targetUser", .str "")])]))
          true]) := rfl
  have h2 : (aliceAndBob.step (.recv 1 nullPayloadOffer allOk)).map (fun w => w.trace)
      = some (aliceAndBob.trace ++ [Event.write 1 .MessageText
          (some (.obj [("type", .str "error"),
            ("payload", .obj [("message", .str "User not found or offline"),
              ("targetUser", .str "")])]))
          true]) := rfl
  refine ⟨after_reachable _ rfl, rfl, h1, ?_, h2, ?_⟩
  · rw [h1]
    simp
  · rw [h2]
    simp

/-- C10, amended. In every reachable state, for a session in its loop with
bound identity `sid` and a text frame that decodes to an offer, answer or
candidate: when the payload is absent, the step calls no channel and the loop
goes on; when the payload is `null` or an object with no member matching
`targetUserId`, the target is taken to be the empty identity, which is never
in the registry, and the step goes through the unknown-target report: one
write of the error envelope with `targetUser = ""` on the channel the
registry holds for `sid`, or nothing when it holds none. In all these cases
the registry and the sessions are unchanged and the loop goes on. -/
theorem forward_without_target (w : World) (hw : w.Reachable) (c : Conn) (sid : String)
    (hs : w.sessions c = some ⟨sid, .loop⟩)
    (data : Bytes) (msg : Message) (hmsg : unmarshalMessage data = .ok msg)
    (hty : msg.Typ = "offer" ∨ msg.Typ = "answer" ∨ msg.Typ = "candidate")
    (hmiss : msg.Payload = none ∨ msg.Payload = some .null ∨
      ∃ kvs, msg.Payload = some (.obj kvs) ∧ ∀ kv ∈ kvs, keyMatches "targetUserId" kv.1 = false)
    (wr : Conn → Bool) :
    w.server.clients.Load "" = none ∧
    w.step (.recv c (.ok (.MessageText, data)) wr)
      = some { server := w.server, sessions := w.sessions,
               trace := w.trace ++
                 match msg.Payload with
                 | none => []
                 | some _ =>
                   match w.server.clients.Load sid with
                   | some conn =>
                     [Event.write conn .MessageText
                       (some (.obj [("type", .str "error"),
                         ("payload", .obj [("message", .str "User not found or offline"),
                           ("targetUser", .str "")])]))
                       (wr conn)]
                   | none => [] } := by
  have hi := reachable_inv w hw
  have hsid : sid ≠ "" := hi.bound c _ hs rfl
  have hempty : w.server.clients.Load "" = none := by
    cases h : w.server.clients.Load "" with
    | none => rfl
    | some conn => exact absurd rfl (hi.bound conn _ (hi.entry "" conn h) rfl)
  refine ⟨hempty, ?_⟩
  rw [step_recv_of w c _ wr _ hs (by simp), handleWebSocket_loop_ok,
    sessions_update_self w c _ hs]
  rcases hmiss with hp | hp | ⟨kvs, hp, hk⟩
  · rw [loopBody_no_payload w.server wr sid data msg hmsg hty hp, hp]
  · have hpay : unmarshalForwardPayload msg.Payload = .ok ⟨""⟩ := by
      rw [hp]
      rfl
    rw [loopBody_forward w.server wr sid data msg hmsg hty ⟨""⟩ hpay _ hp hsid,
      sendMessageToClient_missing _ _ _ _ _ hempty, hp]
  · have hpay : unmarshalForwardPayload msg.Payload = .ok ⟨""⟩ := by
      rw [hp]
      exact decodeObject_no_target kvs hk {}
    rw [loopBody_forward w.server wr sid data msg hmsg hty ⟨""⟩ hpay _ hp hsid,
      sendMessageToClient_missing _ _ _ _ _ hempty, hp]

/-- C10 amended, for `alice` sending the offer
`{"type":"offer","payload":{"sdp":"x"}}`, whose payload has no
`targetUserId`: the error envelope with an empty `targetUser` is written on
the channel the registry holds for `alice`. -/
theorem forward_without_target_witness :
    aliceAndBob.server.clients.Load "" = none ∧
    aliceAndBob.step (.recv 1 untargetedOffer allOk)
      = some { server := aliceAndBob.server, sessions := aliceAndBob.sessions,
               trace := aliceAndBob.trace ++
                 match (some (Json.obj [("sdp", .str "x")]) : Bytes) with
                 | none => []
                 | some _ =>
                   match aliceAndBob.server.clients.Load "alice" with
                   | some conn =>
                     [Event.write conn .MessageText
                       (some (.obj [("type", .str "error"),
                         ("payload", .obj [("message", .str "User not found or offline"),
                           ("targetUser", .str "")])]))
                       (allOk conn)]
                   | none => [] } :=
  forward_without_target aliceAndBob (after_reachable _ rfl) 1 "alice" rfl
    (some (.obj [("type", .str "offer"), ("payload", .obj [("sdp", .str "x")])]))
    ⟨"offer", some (.obj [("sdp", .str "x")]), ""⟩ rfl (Or.inl rfl)
    (Or.inr (Or.inr ⟨[("sdp", .str "x")], rfl, by
      intro kv hkv
      rw [List.mem_singleton] at hkv
      subst hkv
      decide⟩)) allOk

end P2PChat
